import Mathlib

/-!
Shallow embedding of `latest_files_announce_evt.js` (ENiGMA½ mod): a scheduled
event that scans file areas for files newer than a stored checkpoint timestamp,
renders a templated "new files" report and posts it to one or more message
areas.  External ENiGMA core modules (StatLog, FileEntry, AnsiPrep,
stringFormat, persistMessage, getSortedAvailableFileAreas, moment, hjson,
iconv, fs) are modelled as parameters of an `Env` record; the logic of the
mod's own four waterfall stages (`loadOptions`, `readTemplates`,
`findNewFiles`, `buildMessages`) is embedded directly.
-/

namespace LFA

/-- A file area as yielded by `getSortedAvailableFileAreas` (external). -/
structure Area where
  areaTag : String
  name : String
  desc : String
deriving DecidableEq

/-- A loaded `FileEntry` record; field names follow the JS properties used by
the mod (`fileInfo.meta.byte_size` is flattened to `byte_size`, etc.). -/
structure FileInfo where
  fileName : String
  byte_size : Nat
  desc : String
  fileSha256 : String
  file_crc32 : String
  file_md5 : String
  file_sha1 : String
  upload_by_username : Option String
  uploadTimestamp : String
  hashTags : List String
deriving DecidableEq

/-- Keys that may appear in `options.hjson`; `none` models an absent key.
The JS field `from` is rendered here as `fromName` (`from` is reserved). -/
structure RawOptions where
  areaTagsRegEx : Option String := none
  maxFilesPerArea : Option Nat := none
  postMaxSizeTarget : Option Nat := none
  header : Option String := none
  areaHeader : Option String := none
  areaFooter : Option String := none
  entry : Option String := none
  footer : Option String := none
  toName : Option String := none
  fromName : Option String := none
  tsFormat : Option String := none
  subjectFormat : Option String := none
  templateEncoding : Option String := none

/-- JS `a || b` for string-valued options: `undefined` and `''` are falsy. -/
def orStr (v : Option String) (d : String) : String :=
  match v with
  | some s => if s = "" then d else s
  | none => d

/-- JS `a || b` for number-valued options: `undefined` and `0` are falsy. -/
def orNat (v : Option Nat) (d : Nat) : Nat :=
  match v with
  | some n => if n = 0 then d else n
  | none => d

/-- Resolved options after applying the defaults of lines 100-113. -/
structure Options where
  areaTagsRegEx : String
  maxFilesPerArea : Nat
  postMaxSizeTarget : Nat
  header : String
  areaHeader : String
  areaFooter : String
  entry : String
  footer : String
  toName : String
  fromName : String
  tsFormat : String
  nowTs : String
  subjectFormat : String
  templateEncoding : String
  sinceTs : String := ""

/-- Outcome of `fs.readFile(optionsPath)` + `hjson.parse` (both external):
a non-ENOENT read error, an absent file (ENOENT, which is OK and means
defaults), or file content whose parse either fails or yields raw options. -/
inductive OptionsSource where
  | readError (msg : String)
  | absent
  | content (parsed : Except String RawOptions)

/-- The `formatObj` passed to `stringFormat`: board/run fields are set up
front, per-area and per-entry fields are added (mutated) as rendering
proceeds, so they are `Option`s that start out `none`. -/
structure FormatObj where
  boardName : String
  nowTs : String
  sinceTs : String
  totalFileCount : Nat
  totalFileBytes : Nat
  areaFileCount : Option Nat := none
  areaRemainingFiles : Option Nat := none
  areaFileBytes : Option Nat := none
  areaName : Option String := none
  areaDesc : Option String := none
  fileName : Option String := none
  fileSize : Option Nat := none
  fileDesc : Option String := none
  fileSha256 : Option String := none
  fileCrc32 : Option String := none
  fileMd5 : Option String := none
  fileSha1 : Option String := none
  uploadBy : Option String := none
  fileUploadTs : Option String := none
  fileHashTags : Option String := none

/-- Which of the five templates a `stringFormat` call uses. -/
inductive TemplateKind where
  | header
  | areaHeader
  | entry
  | areaFooter
  | footer
deriving DecidableEq

/-- One call to `stringFormat(template, formatObj)` during body building,
with the snapshot of `formatObj` at the moment of the call. -/
structure RenderCall where
  kind : TemplateKind
  fo : FormatObj

/-- An outbound `Message` as constructed at lines 290-297. -/
structure Msg where
  areaTag : String
  toUserName : String
  fromUserName : String
  subject : String
  message : String
  explicitEncoding : String

/-- Observable events of one run, used to state ordering properties:
the checkpoint stat read/write and the catalog scan steps. -/
inductive Ev where
  | statRead (v : Option String)
  | statWrite (v : String)
  | areaEnum
  | areaQuery (tag : String)
  | fileLoad (fileId : Nat)
deriving DecidableEq

/-- Events that touch the file catalog (area enumeration, per-area queries,
per-file loads). -/
def isScanEv : Ev → Bool
  | .areaEnum => true
  | .areaQuery _ => true
  | .fileLoad _ => true
  | _ => false

/-- Per-area aggregate handed from `findNewFiles` to `buildMessages`
(lines 208-213). -/
structure AreaReport where
  areaInfo : Area
  files : List FileInfo
  areaFileBytes : Nat
  remainingFiles : Nat

/-- External collaborators of the mod, one field per required core/dep
function actually invoked. `stat` is the stored checkpoint at run start
(`StatLog.getSystemStat`), `nowIso` the value of `getISOTimestampString()`,
`ansiPrep` the `desc` argument `AnsiPrep` passes to its callback (given the
computed description indent and the input text; `none` models a failure or
an `undefined` result, which the mod treats alike). -/
structure Env where
  optionsSource : OptionsSource
  formatNow : String → String
  formatTs : String → String → String
  readTemplateFile : String → Except String String
  splitTextAtTerms : String → List String
  stat : Option String
  nowIso : String
  areas : List Area
  regexMatch : String → String → Bool
  findFiles : String → Except String (List Nat)
  loadFile : Nat → Except String FileInfo
  ansiPrep : Nat → String → Option String
  boardName : String
  fmt : String → FormatObj → String
  persist : Msg → Except String Unit

/-- Sequential error-propagating map, the embedding of `async.map` result
collection (first error wins, result order follows input order). -/
def mapE (f : α → Except String β) : List α → Except String (List β)
  | [] => .ok []
  | a :: as =>
    match f a with
    | .error e => .error e
    | .ok b =>
      match mapE f as with
      | .error e => .error e
      | .ok bs => .ok (b :: bs)

/-- Stage 1, `loadOptions` (lines 76-117): merge parsed raw options with
defaults; a non-ENOENT read error or an hjson parse error is fatal. -/
def resolveOptions (env : Env) (raw : RawOptions) : Options :=
  let tsFormat := orStr raw.tsFormat "ddd, MMMM Do, YYYY"
  { areaTagsRegEx := orStr raw.areaTagsRegEx "^(?!uploads).*$"
    maxFilesPerArea := orNat raw.maxFilesPerArea 20
    postMaxSizeTarget := orNat raw.postMaxSizeTarget 512000
    header := orStr raw.header "LFASTAR.ASC"
    areaHeader := orStr raw.areaHeader "LFAASTAR.ASC"
    areaFooter := orStr raw.areaFooter "LFAAEND.ASC"
    entry := orStr raw.entry "LFAENTRY.ASC"
    footer := orStr raw.footer "LFAEND.ASC"
    toName := orStr raw.toName "All"
    fromName := orStr raw.fromName "ENiGMA-Bot"
    tsFormat := tsFormat
    nowTs := env.formatNow tsFormat
    subjectFormat := orStr raw.subjectFormat "New files on {boardName}"
    templateEncoding := orStr raw.templateEncoding "utf8" }

def loadOptions (env : Env) : Except String Options :=
  match env.optionsSource with
  | .readError m => .error m
  | .absent => .ok (resolveOptions env {})
  | .content (.error e) => .error e
  | .content (.ok raw) => .ok (resolveOptions env raw)

/-- `templates.map(tmp => ... .replace(/\r?\n/g, '\r\n'))`: normalize line
terminators to CRLF (a bare `\n`, or a `\r\n` pair, becomes `\r\n`). -/
def normCRLFAux : List Char → List Char
  | [] => []
  | '\r' :: '\n' :: rest => '\r' :: '\n' :: normCRLFAux rest
  | '\n' :: rest => '\r' :: '\n' :: normCRLFAux rest
  | c :: rest => c :: normCRLFAux rest

def normalizeCRLF (s : String) : String :=
  String.mk (normCRLFAux s.data)

/-- JS `String.prototype.indexOf`, as an `Option` (JS returns -1 on miss). -/
def idxOfSub (needle : List Char) : List Char → Option Nat
  | [] => if needle.isPrefixOf ([] : List Char) then some 0 else none
  | c :: rest =>
    if needle.isPrefixOf (c :: rest) then some 0
    else (idxOfSub needle rest).map (· + 1)

/-- Lines 135-143: scan the entry template's lines for the first occurrence
of the description placeholder; its column is the description indent
(0 when never found). -/
def descIndentOf : List String → Nat
  | [] => 0
  | l :: rest =>
    match idxOfSub "{fileDesc}".data l.data with
    | some p => p
    | none => descIndentOf rest

/-- The five template file names in order (lines 66-72 / 118-121). -/
def templateNames (o : Options) : List String :=
  [o.header, o.areaHeader, o.entry, o.areaFooter, o.footer]

/-- Stage 2, `readTemplates` (lines 118-147): read all five templates (any
read error is fatal), normalize line endings, compute the description
indent from the entry template. -/
def readTemplates (env : Env) (o : Options) : Except String (List String × Nat) :=
  match mapE env.readTemplateFile (templateNames o) with
  | .error e => .error e
  | .ok raw =>
    let templates := raw.map normalizeCRLF
    .ok (templates, descIndentOf (env.splitTextAtTerms (templates.getD 2 "")))

/-- Lines 196-199: the `AnsiPrep` callback ignores the error and only
assigns the reflowed text when it is truthy (non-empty). -/
def applyDescReflow (fi : FileInfo) (r : Option String) : FileInfo :=
  match r with
  | some d => if d = "" then fi else { fi with desc := d }
  | none => fi

/-- Load one file id and run its description through `AnsiPrep`
(lines 176-203); the reflow step can never fail the file. -/
def enrichFile (env : Env) (descIndent : Nat) (fileId : Nat) : Except String FileInfo :=
  match env.loadFile fileId with
  | .error e => .error e
  | .ok fi => .ok (applyDescReflow fi (env.ansiPrep descIndent fi.desc))

/-- Load the capped id list of one area, accumulating `areaFileBytes` from
each loaded file's `byte_size` (line 182, before the desc reflow). -/
def loadAreaFiles (env : Env) (descIndent : Nat) : List Nat → Except String (List FileInfo × Nat)
  | [] => .ok ([], 0)
  | fileId :: rest =>
    match env.loadFile fileId with
    | .error e => .error e
    | .ok fi =>
      match loadAreaFiles env descIndent rest with
      | .error e => .error e
      | .ok (fis, bytes) =>
        .ok (applyDescReflow fi (env.ansiPrep descIndent fi.desc) :: fis,
             fi.byte_size + bytes)

/-- One area's scan (lines 162-217): query ids newer than the checkpoint,
compute the over-cap remainder, load/enrich only the first
`maxFilesPerArea` ids. -/
def processArea (env : Env) (o : Options) (descIndent : Nat) (area : Area) :
    Except String AreaReport :=
  match env.findFiles area.areaTag with
  | .error e => .error e
  | .ok fileIds =>
    match loadAreaFiles env descIndent (fileIds.take o.maxFilesPerArea) with
    | .error e => .error e
    | .ok (fileInfos, areaFileBytes) =>
      .ok { areaInfo := area
            files := fileInfos
            areaFileBytes := areaFileBytes
            remainingFiles :=
              if fileIds.length > o.maxFilesPerArea
              then fileIds.length - o.maxFilesPerArea else 0 }

/-- Line 160: enumerate areas and keep those whose tag matches the regex. -/
def matchedAreas (env : Env) (o : Options) : List Area :=
  env.areas.filter (fun a => env.regexMatch o.areaTagsRegEx a.areaTag)

/-- The scan portion of stage 3 (after the checkpoint handling). -/
def findNewFiles (env : Env) (o : Options) (descIndent : Nat) :
    Except String (List AreaReport) :=
  mapE (processArea env o descIndent) (matchedAreas env o)

/-- Catalog events of stage 3: one enumeration, then per matched area a
query followed by the loads of its capped id list.  (`async.map` issues
these concurrently; only their all-after-the-checkpoint-write position is
asserted, not their relative order.) -/
def areaScanTrace (env : Env) (o : Options) (area : Area) : List Ev :=
  Ev.areaQuery area.areaTag ::
    (match env.findFiles area.areaTag with
     | .ok ids => (ids.take o.maxFilesPerArea).map Ev.fileLoad
     | .error _ => [])

def scanTrace (env : Env) (o : Options) : List Ev :=
  Ev.areaEnum :: (matchedAreas env o).flatMap (areaScanTrace env o)

/-! ### Stage 4: `buildMessages` (lines 222-306) -/

/-- The block of `formatObj` assignments at the top of an area section
(lines 254-260), including the running-total updates of lines 257-258. -/
def areaHeaderFo (fo : FormatObj) (r : AreaReport) : FormatObj :=
  { fo with
    areaFileCount := some r.files.length
    areaRemainingFiles := some r.remainingFiles
    areaFileBytes := some r.areaFileBytes
    totalFileCount := fo.totalFileCount + r.files.length
    totalFileBytes := fo.totalFileBytes + r.areaFileBytes
    areaName := some r.areaInfo.name
    areaDesc := some r.areaInfo.desc }

/-- The per-entry `formatObj` assignments (lines 266-276). -/
def setEntryFields (fo : FormatObj) (fi : FileInfo) : FormatObj :=
  { fo with
    fileName := some fi.fileName
    fileSize := some fi.byte_size
    fileDesc := some fi.desc
    fileSha256 := some fi.fileSha256
    fileCrc32 := some fi.file_crc32
    fileMd5 := some fi.file_md5
    fileSha1 := some fi.file_sha1
    uploadBy := some (orStr fi.upload_by_username "N/A")
    fileUploadTs := some fi.uploadTimestamp
    fileHashTags := some (String.intercalate ", " fi.hashTags) }

/-- The inner `areaFiles.forEach` loop (lines 264-279): mutate the entry
fields, emit one entry-template call per file.  Returns the `formatObj`
after the loop together with the emitted calls. -/
def renderEntries (fo : FormatObj) : List FileInfo → FormatObj × List RenderCall
  | [] => (fo, [])
  | fi :: rest =>
    ((renderEntries (setEntryFields fo fi) rest).1,
     ⟨.entry, setEntryFields fo fi⟩ :: (renderEntries (setEntryFields fo fi) rest).2)

/-- One iteration of the `allFileInfos.forEach` loop (lines 247-282): skip
areas with no files, otherwise emit area header, entries, area footer. -/
def renderArea (fo : FormatObj) (r : AreaReport) : FormatObj × List RenderCall :=
  if r.files.length = 0 then (fo, [])
  else
    ((renderEntries (areaHeaderFo fo r) r.files).1,
     ⟨.areaHeader, areaHeaderFo fo r⟩ ::
       ((renderEntries (areaHeaderFo fo r) r.files).2 ++
        [⟨.areaFooter, (renderEntries (areaHeaderFo fo r) r.files).1⟩]))

def renderAreas (fo : FormatObj) : List AreaReport → FormatObj × List RenderCall
  | [] => (fo, [])
  | r :: rest =>
    ((renderAreas (renderArea fo r).1 rest).1,
     (renderArea fo r).2 ++ (renderAreas (renderArea fo r).1 rest).2)

/-- The initial `formatObj` (lines 237-243). -/
def initFormatObj (env : Env) (o : Options) : FormatObj :=
  { boardName := env.boardName
    nowTs := o.nowTs
    sinceTs := o.sinceTs
    totalFileCount := 0
    totalFileBytes := 0 }

/-- The full sequence of `stringFormat` calls building `msgBody`
(lines 245-284): header, per-area sections, footer; paired with the final
`formatObj`. -/
def buildCalls (env : Env) (o : Options) (reports : List AreaReport) :
    FormatObj × List RenderCall :=
  (( renderAreas (initFormatObj env o) reports).1,
   ⟨.header, initFormatObj env o⟩ ::
     ((renderAreas (initFormatObj env o) reports).2 ++
      [⟨.footer, (renderAreas (initFormatObj env o) reports).1⟩]))

/-- Which template text a render call consumes. -/
def templateFor (templates : List String) : TemplateKind → String
  | .header => templates.getD 0 ""
  | .areaHeader => templates.getD 1 ""
  | .entry => templates.getD 2 ""
  | .areaFooter => templates.getD 3 ""
  | .footer => templates.getD 4 ""

/-- `msgBody`: concatenation of the `stringFormat` results in call order. -/
def msgBodyOf (env : Env) (templates : List String) (calls : List RenderCall) : String :=
  calls.foldl (fun acc c => acc ++ env.fmt (templateFor templates c.kind) c.fo) ""

/-- The `Message` constructed for one destination tag (lines 290-297); the
subject is `stringFormat(options.subjectFormat, formatObj)` against the
final (post-render) `formatObj`. -/
def mkMsg (env : Env) (o : Options) (foF : FormatObj) (body : String) (tag : String) : Msg :=
  { areaTag := tag
    toUserName := o.toName
    fromUserName := o.fromName
    subject := env.fmt o.subjectFormat foF
    message := body
    explicitEncoding := "cp437" }

/-- `async.eachSeries` over the destination tags (lines 289-302): persist a
message per tag in order, stopping at the first failure.  Returns the
result, the successfully persisted messages, and the tags attempted. -/
def deliverSeq (env : Env) (mk : String → Msg) :
    List String → Except String Unit × List Msg × List String
  | [] => (.ok (), [], [])
  | t :: rest =>
    match env.persist (mk t) with
    | .error e => (.error e, [], [t])
    | .ok _ =>
      ((deliverSeq env mk rest).1,
       mk t :: (deliverSeq env mk rest).2.1,
       t :: (deliverSeq env mk rest).2.2)

/-- JS `String.prototype.split(',')` (line 288): split at every comma;
an input without commas yields a single-element list. -/
def splitCommaAux : List Char → List Char → List String
  | [], acc => [String.mk acc.reverse]
  | c :: rest, acc =>
    if c = ',' then String.mk acc.reverse :: splitCommaAux rest []
    else splitCommaAux rest (c :: acc)

def splitComma (s : String) : List String :=
  splitCommaAux s.data []

/-- Stage 4 in full: build the body, and deliver only when the total
included file count is positive (line 286); otherwise succeed with no
message.  `destArg` is `args[0]`, split at commas (line 288). -/
def buildMessages (env : Env) (o : Options) (templates : List String)
    (reports : List AreaReport) (destArg : String) : Except String Unit × List Msg :=
  if (buildCalls env o reports).1.totalFileCount > 0 then
    ((deliverSeq env
        (mkMsg env o (buildCalls env o reports).1
          (msgBodyOf env templates (buildCalls env o reports).2))
        (splitComma destArg)).1,
     (deliverSeq env
        (mkMsg env o (buildCalls env o reports).1
          (msgBodyOf env templates (buildCalls env o reports).2))
        (splitComma destArg)).2.1)
  else (.ok (), [])

/-! ### The whole event run -/

/-- Result of one invocation of `latestFilesAnnounceEvent`: the callback
outcome, the checkpoint stat after the run, the messages persisted, and the
observable stat/catalog event trace. -/
structure RunOut where
  result : Except String Unit
  stat : Option String
  delivered : List Msg
  trace : List Ev

/-- Stages 1-2 composed (no stat or catalog access happens in them). -/
def resolveStage (env : Env) : Except String (Options × List String × Nat) :=
  match loadOptions env with
  | .error e => .error e
  | .ok o =>
    match readTemplates env o with
    | .error e => .error e
    | .ok td => .ok (o, td.1, td.2)

/-- Line 158: `options.sinceTs = moment(lastTimestamp).format(options.tsFormat)`. -/
def withSince (env : Env) (o : Options) (lastTimestamp : String) : Options :=
  { o with sinceTs := env.formatTs lastTimestamp o.tsFormat }

/-- The whole `latestFilesAnnounceEvent(args, cb)` waterfall.  Stage 3 reads
the checkpoint stat, immediately overwrites it with `nowIso` (line 151,
before the area enumeration of line 160), errors out when no prior value
existed (line 153-156), sets `options.sinceTs` (line 158) and scans; stage 4
renders and delivers. -/
def runEvent (env : Env) (args : List String) : RunOut :=
  if args.length < 1 then
    { result := .error "MissingParam: At least [areaTag] required in args"
      stat := env.stat, delivered := [], trace := [] }
  else
    match resolveStage env with
    | .error e => { result := .error e, stat := env.stat, delivered := [], trace := [] }
    | .ok (o, templates, descIndent) =>
      match env.stat with
      | none =>
        { result := .error "Last timestamp not set; Set to now for next event run time"
          stat := some env.nowIso
          delivered := []
          trace := [Ev.statRead none, Ev.statWrite env.nowIso] }
      | some lastTimestamp =>
        match findNewFiles env (withSince env o lastTimestamp) descIndent with
        | .error e =>
          { result := .error e, stat := some env.nowIso, delivered := []
            trace := Ev.statRead (some lastTimestamp) :: Ev.statWrite env.nowIso ::
              scanTrace env (withSince env o lastTimestamp) }
        | .ok reports =>
          { result := (buildMessages env (withSince env o lastTimestamp) templates reports
              (args.getD 0 "")).1
            stat := some env.nowIso
            delivered := (buildMessages env (withSince env o lastTimestamp) templates reports
              (args.getD 0 "")).2
            trace := Ev.statRead (some lastTimestamp) :: Ev.statWrite env.nowIso ::
              scanTrace env (withSince env o lastTimestamp) }

/-! ### Basic lemmas about the scan stage -/

/-- The reflow step never changes a file's byte size. -/
theorem applyDescReflow_byte_size (fi : FileInfo) (r : Option String) :
    (applyDescReflow fi r).byte_size = fi.byte_size := by
  cases r with
  | none => rfl
  | some d =>
    by_cases h : d = "" <;> simp [applyDescReflow, h]

theorem mapE_ok_cons {f : α → Except String β} {a : α} {as : List α} {bs : List β}
    (h : mapE f (a :: as) = .ok bs) :
    ∃ b bs', f a = .ok b ∧ mapE f as = .ok bs' ∧ bs = b :: bs' := by
  unfold mapE at h
  cases hfa : f a <;> rw [hfa] at h
  · cases h
  · cases hrest : mapE f as <;> rw [hrest] at h
    · cases h
    · injection h with h
      exact ⟨_, _, rfl, rfl, h.symm⟩

theorem mapE_ok_length {f : α → Except String β} {l : List α} {bs : List β}
    (h : mapE f l = .ok bs) : bs.length = l.length := by
  induction l generalizing bs with
  | nil =>
    unfold mapE at h
    injection h with h
    simp [← h]
  | cons a as ih =>
    obtain ⟨b, bs', _, hrest, rfl⟩ := mapE_ok_cons h
    simp [ih hrest]

theorem mapE_ok_forall_mem {f : α → Except String β} {l : List α} {bs : List β}
    (h : mapE f l = .ok bs) : ∀ b ∈ bs, ∃ a ∈ l, f a = .ok b := by
  induction l generalizing bs with
  | nil =>
    unfold mapE at h
    injection h with h
    simp [← h]
  | cons a as ih =>
    obtain ⟨b, bs', hfa, hrest, rfl⟩ := mapE_ok_cons h
    intro c hc
    rcases List.mem_cons.mp hc with rfl | hc
    · exact ⟨a, List.mem_cons_self .., hfa⟩
    · obtain ⟨a', ha', hfa'⟩ := ih hrest c hc
      exact ⟨a', List.mem_cons_of_mem _ ha', hfa'⟩

theorem mapE_of_forall_ok {f : α → Except String β} {g : α → β} {l : List α}
    (h : ∀ a ∈ l, f a = .ok (g a)) : mapE f l = .ok (l.map g) := by
  induction l with
  | nil => rfl
  | cons a as ih =>
    unfold mapE
    rw [h a (List.mem_cons_self ..), ih (fun a ha => h a (List.mem_cons_of_mem _ ha))]
    rfl

theorem loadAreaFiles_ok_cons {env : Env} {di fileId : Nat} {rest : List Nat}
    {fis : List FileInfo} {bytes : Nat}
    (h : loadAreaFiles env di (fileId :: rest) = .ok (fis, bytes)) :
    ∃ fi fis' bytes', env.loadFile fileId = .ok fi ∧
      loadAreaFiles env di rest = .ok (fis', bytes') ∧
      fis = applyDescReflow fi (env.ansiPrep di fi.desc) :: fis' ∧
      bytes = fi.byte_size + bytes' := by
  unfold loadAreaFiles at h
  cases hfa : env.loadFile fileId <;> rw [hfa] at h
  · cases h
  · cases hrest : loadAreaFiles env di rest <;> rw [hrest] at h
    · cases h
    · rename_i fi pr
      injection h with h
      exact ⟨fi, pr.1, pr.2, rfl, rfl, congrArg Prod.fst h.symm, congrArg Prod.snd h.symm⟩

/-- The accumulated `areaFileBytes` equals the byte-size sum of the loaded
(and then reflowed) files. -/
theorem loadAreaFiles_bytes {env : Env} {di : Nat} {ids : List Nat}
    {fis : List FileInfo} {bytes : Nat}
    (h : loadAreaFiles env di ids = .ok (fis, bytes)) :
    bytes = (fis.map FileInfo.byte_size).sum := by
  induction ids generalizing fis bytes with
  | nil =>
    unfold loadAreaFiles at h
    injection h with h
    injection h with h1 h2
    subst h1 h2
    rfl
  | cons fileId rest ih =>
    obtain ⟨fi, fis', bytes', _, hrest, rfl, rfl⟩ := loadAreaFiles_ok_cons h
    simp [ih hrest, applyDescReflow_byte_size]

/-- `loadAreaFiles` computes exactly the per-id enrichments, in order. -/
theorem loadAreaFiles_mapE {env : Env} {di : Nat} {ids : List Nat}
    {fis : List FileInfo} {bytes : Nat}
    (h : loadAreaFiles env di ids = .ok (fis, bytes)) :
    mapE (enrichFile env di) ids = .ok fis := by
  induction ids generalizing fis bytes with
  | nil =>
    unfold loadAreaFiles at h
    injection h with h
    injection h with h1 h2
    subst h1 h2
    rfl
  | cons fileId rest ih =>
    obtain ⟨fi, fis', bytes', hload, hrest, rfl, rfl⟩ := loadAreaFiles_ok_cons h
    have he : enrichFile env di fileId = .ok (applyDescReflow fi (env.ansiPrep di fi.desc)) := by
      unfold enrichFile
      rw [hload]
    unfold mapE
    rw [he, ih hrest]

theorem processArea_ok_inv {env : Env} {o : Options} {di : Nat} {area : Area}
    {r : AreaReport} {ids : List Nat}
    (hff : env.findFiles area.areaTag = .ok ids)
    (h : processArea env o di area = .ok r) :
    loadAreaFiles env di (ids.take o.maxFilesPerArea) = .ok (r.files, r.areaFileBytes) ∧
    r.remainingFiles =
      (if ids.length > o.maxFilesPerArea then ids.length - o.maxFilesPerArea else 0) ∧
    r.areaInfo = area := by
  unfold processArea at h
  rw [hff] at h
  dsimp only at h
  cases hl : loadAreaFiles env di (ids.take o.maxFilesPerArea) <;> rw [hl] at h
  · cases h
  · rename_i pr
    obtain ⟨fis, bytes⟩ := pr
    dsimp only at h
    injection h with h
    subst h
    exact ⟨rfl, rfl, rfl⟩

/-- Invariant: every successfully built `AreaReport` carries the byte-size
sum of exactly its included files. -/
theorem processArea_bytes_inv {env : Env} {o : Options} {di : Nat} {area : Area}
    {r : AreaReport} (h : processArea env o di area = .ok r) :
    r.areaFileBytes = (r.files.map FileInfo.byte_size).sum := by
  unfold processArea at h
  cases hff : env.findFiles area.areaTag <;> rw [hff] at h
  · cases h
  · rename_i ids
    dsimp only at h
    cases hl : loadAreaFiles env di (ids.take o.maxFilesPerArea) <;> rw [hl] at h
    · cases h
    · rename_i pr
      obtain ⟨fis, bytes⟩ := pr
      dsimp only at h
      injection h with h
      subst h
      exact loadAreaFiles_bytes hl

theorem findNewFiles_bytes_inv {env : Env} {o : Options} {di : Nat}
    {reports : List AreaReport} (h : findNewFiles env o di = .ok reports) :
    ∀ r ∈ reports, r.areaFileBytes = (r.files.map FileInfo.byte_size).sum := by
  intro r hr
  obtain ⟨a, _, ha⟩ := mapE_ok_forall_mem h r hr
  exact processArea_bytes_inv ha

/-! ### Lemmas about the rendering loop -/

theorem renderEntries_fst_totals (fo : FormatObj) (fs : List FileInfo) :
    (renderEntries fo fs).1.totalFileCount = fo.totalFileCount ∧
    (renderEntries fo fs).1.totalFileBytes = fo.totalFileBytes := by
  induction fs generalizing fo with
  | nil => exact ⟨rfl, rfl⟩
  | cons fi rest ih =>
    unfold renderEntries
    exact ⟨(ih (setEntryFields fo fi)).1, (ih (setEntryFields fo fi)).2⟩

/-- Every call emitted by the entry loop is an entry call, sees the totals
that were set in the enclosing area header block, and carries the byte size
of one of the area's files as `fileSize`. -/
theorem renderEntries_calls (fo : FormatObj) (fs : List FileInfo) :
    ∀ c ∈ (renderEntries fo fs).2,
      c.kind = .entry ∧ c.fo.totalFileCount = fo.totalFileCount ∧
      c.fo.totalFileBytes = fo.totalFileBytes ∧
      ∃ fi ∈ fs, c.fo.fileSize = some fi.byte_size := by
  induction fs generalizing fo with
  | nil =>
    intro c hc
    simp [renderEntries] at hc
  | cons fi rest ih =>
    intro c hc
    unfold renderEntries at hc
    rcases List.mem_cons.mp hc with rfl | hc
    · exact ⟨rfl, rfl, rfl, fi, List.mem_cons_self .., rfl⟩
    · obtain ⟨hk, h1, h2, fi', hfi', hsz⟩ := ih (setEntryFields fo fi) c hc
      exact ⟨hk, h1, h2, fi', List.mem_cons_of_mem _ hfi', hsz⟩

theorem renderArea_empty {r : AreaReport} (fo : FormatObj) (h : r.files.length = 0) :
    renderArea fo r = (fo, []) := by
  simp [renderArea, h]

theorem renderArea_fst_count (fo : FormatObj) (r : AreaReport) :
    (renderArea fo r).1.totalFileCount = fo.totalFileCount + r.files.length := by
  by_cases h : r.files.length = 0
  · rw [renderArea_empty fo h, h]
    rfl
  · unfold renderArea
    rw [if_neg h]
    exact (renderEntries_fst_totals (areaHeaderFo fo r) r.files).1

theorem renderArea_fst_bytes (fo : FormatObj) {r : AreaReport} (h : r.files.length ≠ 0) :
    (renderArea fo r).1.totalFileBytes = fo.totalFileBytes + r.areaFileBytes := by
  unfold renderArea
  rw [if_neg h]
  exact (renderEntries_fst_totals (areaHeaderFo fo r) r.files).2

theorem renderArea_fst_ge (fo : FormatObj) (r : AreaReport) :
    fo.totalFileCount ≤ (renderArea fo r).1.totalFileCount ∧
    fo.totalFileBytes ≤ (renderArea fo r).1.totalFileBytes := by
  by_cases h : r.files.length = 0
  · rw [renderArea_empty fo h]
    exact ⟨le_rfl, le_rfl⟩
  · rw [renderArea_fst_count, renderArea_fst_bytes fo h]
    exact ⟨Nat.le_add_right .., Nat.le_add_right ..⟩

/-- All calls of one area section carry the same (already updated) totals:
exactly the totals the section's final `formatObj` has. -/
theorem renderArea_calls (fo : FormatObj) (r : AreaReport) :
    ∀ c ∈ (renderArea fo r).2,
      c.fo.totalFileCount = (renderArea fo r).1.totalFileCount ∧
      c.fo.totalFileBytes = (renderArea fo r).1.totalFileBytes := by
  by_cases h : r.files.length = 0
  · rw [renderArea_empty fo h]
    intro c hc
    simp at hc
  · unfold renderArea
    rw [if_neg h]
    intro c hc
    have hfst := renderEntries_fst_totals (areaHeaderFo fo r) r.files
    rcases List.mem_cons.mp hc with rfl | hc
    · exact ⟨hfst.1.symm, hfst.2.symm⟩
    · rcases List.mem_append.mp hc with hc | hc
      · obtain ⟨_, h1, h2, _⟩ := renderEntries_calls (areaHeaderFo fo r) r.files c hc
        exact ⟨h1.trans hfst.1.symm, h2.trans hfst.2.symm⟩
      · rcases List.mem_singleton.mp hc with rfl
        exact ⟨rfl, rfl⟩

theorem renderAreas_fst_ge (fo : FormatObj) (rs : List AreaReport) :
    fo.totalFileCount ≤ (renderAreas fo rs).1.totalFileCount ∧
    fo.totalFileBytes ≤ (renderAreas fo rs).1.totalFileBytes := by
  induction rs generalizing fo with
  | nil => exact ⟨le_rfl, le_rfl⟩
  | cons r rest ih =>
    unfold renderAreas
    exact ⟨(renderArea_fst_ge fo r).1.trans (ih (renderArea fo r).1).1,
           (renderArea_fst_ge fo r).2.trans (ih (renderArea fo r).1).2⟩

theorem renderAreas_fst_count (fo : FormatObj) (rs : List AreaReport) :
    (renderAreas fo rs).1.totalFileCount =
      fo.totalFileCount + (rs.map (fun r => r.files.length)).sum := by
  induction rs generalizing fo with
  | nil => simp [renderAreas]
  | cons r rest ih =>
    unfold renderAreas
    rw [ih (renderArea fo r).1, renderArea_fst_count]
    simp [Nat.add_assoc]

theorem renderAreas_fst_bytes (fo : FormatObj) (rs : List AreaReport)
    (hinv : ∀ r ∈ rs, r.areaFileBytes = (r.files.map FileInfo.byte_size).sum) :
    (renderAreas fo rs).1.totalFileBytes =
      fo.totalFileBytes + (rs.map (fun r => (r.files.map FileInfo.byte_size).sum)).sum := by
  induction rs generalizing fo with
  | nil => simp [renderAreas]
  | cons r rest ih =>
    unfold renderAreas
    rw [ih (renderArea fo r).1 (fun r' hr' => hinv r' (List.mem_cons_of_mem _ hr'))]
    by_cases h : r.files.length = 0
    · have hnil : r.files = [] := List.length_eq_zero.mp h
      rw [renderArea_empty fo h]
      simp [hnil]
    · rw [renderArea_fst_bytes fo h, hinv r (List.mem_cons_self ..)]
      simp [Nat.add_assoc]

/-- Every call emitted while traversing the areas has totals at least the
starting totals and at most the final totals. -/
theorem renderAreas_calls_bounds (fo : FormatObj) (rs : List AreaReport) :
    ∀ c ∈ (renderAreas fo rs).2,
      (fo.totalFileCount ≤ c.fo.totalFileCount ∧
       fo.totalFileBytes ≤ c.fo.totalFileBytes) ∧
      (c.fo.totalFileCount ≤ (renderAreas fo rs).1.totalFileCount ∧
       c.fo.totalFileBytes ≤ (renderAreas fo rs).1.totalFileBytes) := by
  induction rs generalizing fo with
  | nil =>
    intro c hc
    simp [renderAreas] at hc
  | cons r rest ih =>
    intro c hc
    unfold renderAreas at hc ⊢
    rcases List.mem_append.mp hc with hc | hc
    · have h1 := renderArea_calls fo r c hc
      have h2 := renderArea_fst_ge fo r
      have h3 := renderAreas_fst_ge (renderArea fo r).1 rest
      exact ⟨⟨h1.1 ▸ h2.1, h1.2 ▸ h2.2⟩, ⟨h1.1 ▸ h3.1, h1.2 ▸ h3.2⟩⟩
    · have h1 := ih (renderArea fo r).1 c hc
      have h2 := renderArea_fst_ge fo r
      exact ⟨⟨h2.1.trans h1.1.1, h2.2.trans h1.1.2⟩, h1.2⟩

theorem pairwise_of_all {R : α → α → Prop} {l : List α}
    (h : ∀ a ∈ l, ∀ b ∈ l, R a b) : l.Pairwise R := by
  induction l with
  | nil => exact .nil
  | cons a as ih =>
    exact .cons (fun b hb => h a (List.mem_cons_self ..) b (List.mem_cons_of_mem _ hb))
      (ih fun x hx y hy => h x (List.mem_cons_of_mem _ hx) y (List.mem_cons_of_mem _ hy))

/-- Along the emitted call sequence, the running totals never decrease. -/
theorem renderAreas_pairwise (fo : FormatObj) (rs : List AreaReport) :
    List.Pairwise
      (fun a b => a.fo.totalFileCount ≤ b.fo.totalFileCount ∧
        a.fo.totalFileBytes ≤ b.fo.totalFileBytes)
      (renderAreas fo rs).2 := by
  induction rs generalizing fo with
  | nil => exact .nil
  | cons r rest ih =>
    unfold renderAreas
    rw [List.pairwise_append]
    refine ⟨?_, ih (renderArea fo r).1, ?_⟩
    · apply pairwise_of_all
      intro a ha b hb
      have ha' := renderArea_calls fo r a ha
      have hb' := renderArea_calls fo r b hb
      exact ⟨ha'.1.trans hb'.1.symm |>.le, ha'.2.trans hb'.2.symm |>.le⟩
    · intro a ha b hb
      have h1 := renderArea_calls fo r a ha
      have h2 := (renderAreas_calls_bounds (renderArea fo r).1 rest b hb).1
      exact ⟨h1.1 ▸ h2.1, h1.2 ▸ h2.2⟩

/-- Every entry call's snapshot has a `fileSize` that is a summand of the
snapshot's `totalFileBytes` (given the byte-sum invariant on reports). -/
theorem renderArea_entry_size (fo : FormatObj) {r : AreaReport}
    (hinv : r.areaFileBytes = (r.files.map FileInfo.byte_size).sum) :
    ∀ c ∈ (renderArea fo r).2, c.kind = .entry →
      ∃ sz, c.fo.fileSize = some sz ∧ sz ≤ c.fo.totalFileBytes := by
  by_cases h : r.files.length = 0
  · rw [renderArea_empty fo h]
    intro c hc
    simp at hc
  · unfold renderArea
    rw [if_neg h]
    intro c hc hk
    rcases List.mem_cons.mp hc with rfl | hc
    · cases hk
    · rcases List.mem_append.mp hc with hc | hc
      · obtain ⟨_, _, h2, fi, hfi, hsz⟩ := renderEntries_calls (areaHeaderFo fo r) r.files c hc
        refine ⟨fi.byte_size, hsz, ?_⟩
        rw [h2]
        have hle : fi.byte_size ≤ (r.files.map FileInfo.byte_size).sum :=
          List.single_le_sum (fun b _ => Nat.zero_le b) _ (List.mem_map_of_mem _ hfi)
        calc fi.byte_size ≤ r.areaFileBytes := hinv ▸ hle
          _ ≤ (areaHeaderFo fo r).totalFileBytes := Nat.le_add_left ..
      · rcases List.mem_singleton.mp hc with rfl
        cases hk

theorem renderAreas_entry_size (fo : FormatObj) (rs : List AreaReport)
    (hinv : ∀ r ∈ rs, r.areaFileBytes = (r.files.map FileInfo.byte_size).sum) :
    ∀ c ∈ (renderAreas fo rs).2, c.kind = .entry →
      ∃ sz, c.fo.fileSize = some sz ∧ sz ≤ c.fo.totalFileBytes := by
  induction rs generalizing fo with
  | nil =>
    intro c hc
    simp [renderAreas] at hc
  | cons r rest ih =>
    intro c hc hk
    unfold renderAreas at hc
    rcases List.mem_append.mp hc with hc | hc
    · exact renderArea_entry_size fo (hinv r (List.mem_cons_self ..)) c hc hk
    · exact ih (renderArea fo r).1 (fun r' hr' => hinv r' (List.mem_cons_of_mem _ hr')) c hc hk

/-! ### Lemmas at the `buildCalls` / delivery / run level -/

theorem buildCalls_fst_count (env : Env) (o : Options) (rs : List AreaReport) :
    (buildCalls env o rs).1.totalFileCount = (rs.map (fun r => r.files.length)).sum := by
  show (renderAreas (initFormatObj env o) rs).1.totalFileCount = _
  rw [renderAreas_fst_count]
  simp [initFormatObj]

theorem buildCalls_fst_bytes (env : Env) (o : Options) (rs : List AreaReport)
    (hinv : ∀ r ∈ rs, r.areaFileBytes = (r.files.map FileInfo.byte_size).sum) :
    (buildCalls env o rs).1.totalFileBytes =
      (rs.map (fun r => (r.files.map FileInfo.byte_size).sum)).sum := by
  show (renderAreas (initFormatObj env o) rs).1.totalFileBytes = _
  rw [renderAreas_fst_bytes _ _ hinv]
  simp [initFormatObj]

theorem buildCalls_pairwise (env : Env) (o : Options) (rs : List AreaReport) :
    List.Pairwise
      (fun a b => a.fo.totalFileCount ≤ b.fo.totalFileCount ∧
        a.fo.totalFileBytes ≤ b.fo.totalFileBytes)
      (buildCalls env o rs).2 := by
  unfold buildCalls
  apply List.Pairwise.cons
  · intro b hb
    exact ⟨Nat.zero_le _, Nat.zero_le _⟩
  · rw [List.pairwise_append]
    refine ⟨renderAreas_pairwise _ _, List.pairwise_singleton .., ?_⟩
    intro a ha b hb
    rcases List.mem_singleton.mp hb with rfl
    exact (renderAreas_calls_bounds _ _ a ha).2

theorem buildCalls_entry_size (env : Env) (o : Options) (rs : List AreaReport)
    (hinv : ∀ r ∈ rs, r.areaFileBytes = (r.files.map FileInfo.byte_size).sum) :
    ∀ c ∈ (buildCalls env o rs).2, c.kind = .entry →
      ∃ sz, c.fo.fileSize = some sz ∧ sz ≤ c.fo.totalFileBytes := by
  unfold buildCalls
  intro c hc hk
  rcases List.mem_cons.mp hc with rfl | hc
  · cases hk
  · rcases List.mem_append.mp hc with hc | hc
    · exact renderAreas_entry_size _ _ hinv c hc hk
    · rcases List.mem_singleton.mp hc with rfl
      cases hk

theorem deliverSeq_all_ok (env : Env) (mk : String → Msg) (tags : List String)
    (h : ∀ t ∈ tags, env.persist (mk t) = .ok ()) :
    deliverSeq env mk tags = (.ok (), tags.map mk, tags) := by
  induction tags with
  | nil => rfl
  | cons t rest ih =>
    unfold deliverSeq
    rw [h t (List.mem_cons_self ..), ih (fun t' ht' => h t' (List.mem_cons_of_mem _ ht'))]
    rfl

theorem deliverSeq_fail (env : Env) (mk : String → Msg) (pre : List String)
    (t : String) (post : List String) (e : String)
    (hpre : ∀ t' ∈ pre, env.persist (mk t') = .ok ())
    (ht : env.persist (mk t) = .error e) :
    deliverSeq env mk (pre ++ t :: post) = (.error e, pre.map mk, pre ++ [t]) := by
  induction pre with
  | nil =>
    rw [List.nil_append]
    unfold deliverSeq
    rw [ht]
    rfl
  | cons p pre' ih =>
    show deliverSeq env mk (p :: (pre' ++ t :: post)) = _
    unfold deliverSeq
    rw [hpre p (List.mem_cons_self ..),
      ih (fun t' ht' => hpre t' (List.mem_cons_of_mem _ ht'))]
    rfl

theorem buildMessages_pos {env : Env} {o : Options} {templates : List String}
    {rs : List AreaReport} (destArg : String)
    (h : (buildCalls env o rs).1.totalFileCount > 0) :
    buildMessages env o templates rs destArg =
      ((deliverSeq env
          (mkMsg env o (buildCalls env o rs).1 (msgBodyOf env templates (buildCalls env o rs).2))
          (splitComma destArg)).1,
       (deliverSeq env
          (mkMsg env o (buildCalls env o rs).1 (msgBodyOf env templates (buildCalls env o rs).2))
          (splitComma destArg)).2.1) := by
  unfold buildMessages
  rw [if_pos h]

theorem buildMessages_zero {env : Env} {o : Options} {templates : List String}
    {rs : List AreaReport} (destArg : String)
    (h : (buildCalls env o rs).1.totalFileCount = 0) :
    buildMessages env o templates rs destArg = (.ok (), []) := by
  unfold buildMessages
  rw [if_neg (by omega)]

/-- Reduction of the run when both early stages succeed, a checkpoint
exists and the scan succeeds. -/
theorem runEvent_eq_scan {env : Env} {args : List String} {o : Options}
    {templates : List String} {descIndent : Nat} {ts : String}
    {reports : List AreaReport}
    (hlen : 1 ≤ args.length)
    (hres : resolveStage env = .ok (o, templates, descIndent))
    (hstat : env.stat = some ts)
    (hfnf : findNewFiles env (withSince env o ts) descIndent = .ok reports) :
    runEvent env args =
      { result := (buildMessages env (withSince env o ts) templates reports (args.getD 0 "")).1
        stat := some env.nowIso
        delivered := (buildMessages env (withSince env o ts) templates reports (args.getD 0 "")).2
        trace := Ev.statRead (some ts) :: Ev.statWrite env.nowIso ::
          scanTrace env (withSince env o ts) } := by
  unfold runEvent
  rw [if_neg (by omega), hres]
  dsimp only
  rw [hstat]
  dsimp only
  rw [hfnf]

/-- Reduction of the run when the scan stage itself fails: same trace and
checkpoint write, no delivery. -/
theorem runEvent_eq_scan_err {env : Env} {args : List String} {o : Options}
    {templates : List String} {descIndent : Nat} {ts e : String}
    (hlen : 1 ≤ args.length)
    (hres : resolveStage env = .ok (o, templates, descIndent))
    (hstat : env.stat = some ts)
    (hfnf : findNewFiles env (withSince env o ts) descIndent = .error e) :
    runEvent env args =
      { result := .error e
        stat := some env.nowIso
        delivered := []
        trace := Ev.statRead (some ts) :: Ev.statWrite env.nowIso ::
          scanTrace env (withSince env o ts) } := by
  unfold runEvent
  rw [if_neg (by omega), hres]
  dsimp only
  rw [hstat]
  dsimp only
  rw [hfnf]

/-- Reduction of the run on the first-ever run (no stored checkpoint). -/
theorem runEvent_eq_first {env : Env} {args : List String} {o : Options}
    {templates : List String} {descIndent : Nat}
    (hlen : 1 ≤ args.length)
    (hres : resolveStage env = .ok (o, templates, descIndent))
    (hstat : env.stat = none) :
    runEvent env args =
      { result := .error "Last timestamp not set; Set to now for next event run time"
        stat := some env.nowIso
        delivered := []
        trace := [Ev.statRead none, Ev.statWrite env.nowIso] } := by
  unfold runEvent
  rw [if_neg (by omega), hres]
  dsimp only
  rw [hstat]

/-! ### Claim theorems -/

/-- C1: in every run where a prior checkpoint exists (and the run reaches
the scan stage, i.e. options and templates loaded), the checkpoint is read
first, overwritten with the current run time (`nowIso`) immediately after
(trace position 1, right after the read at position 0), and every catalog
scan event (area enumeration, area query, file load) occurs strictly after
the write: no scan step ever precedes the checkpoint write. -/
theorem checkpoint_written_before_any_scan (env : Env) (args : List String)
    (ts : String) (o : Options) (templates : List String) (descIndent : Nat)
    (hlen : 1 ≤ args.length)
    (hres : resolveStage env = .ok (o, templates, descIndent))
    (hstat : env.stat = some ts) :
    (runEvent env args).trace[0]? = some (Ev.statRead (some ts)) ∧
    (runEvent env args).trace[1]? = some (Ev.statWrite env.nowIso) ∧
    (runEvent env args).stat = some env.nowIso ∧
    ∀ j e, (runEvent env args).trace[j]? = some e → isScanEv e = true → 2 ≤ j := by
  have key : (runEvent env args).trace =
      Ev.statRead (some ts) :: Ev.statWrite env.nowIso ::
        scanTrace env (withSince env o ts) ∧
      (runEvent env args).stat = some env.nowIso := by
    cases hfnf : findNewFiles env (withSince env o ts) descIndent with
    | error e => rw [runEvent_eq_scan_err hlen hres hstat hfnf]; exact ⟨rfl, rfl⟩
    | ok reports => rw [runEvent_eq_scan hlen hres hstat hfnf]; exact ⟨rfl, rfl⟩
  rw [key.1]
  refine ⟨rfl, rfl, key.2, ?_⟩
  intro j e hj hscan
  match j with
  | 0 =>
    rw [List.getElem?_cons_zero] at hj
    injection hj with hj
    rw [← hj] at hscan
    cases hscan
  | 1 =>
    rw [List.getElem?_cons_succ, List.getElem?_cons_zero] at hj
    injection hj with hj
    rw [← hj] at hscan
    cases hscan
  | (n + 2) => omega

/-- C2: for an area whose catalog query yields `fileIds` (N ids) and cap
`maxFilesPerArea` (C), the produced report includes exactly `min N C`
files, namely the enrichments of the first `min N C` ids in
catalog-yielded order, and `remainingFiles` is `N - C` when `N > C` and
`0` when `C ≥ N`. -/
theorem area_cap_and_remaining {env : Env} {o : Options} {descIndent : Nat}
    {area : Area} {r : AreaReport} {fileIds : List Nat}
    (hff : env.findFiles area.areaTag = .ok fileIds)
    (h : processArea env o descIndent area = .ok r) :
    r.files.length = min fileIds.length o.maxFilesPerArea ∧
    mapE (enrichFile env descIndent) (fileIds.take o.maxFilesPerArea) = .ok r.files ∧
    (fileIds.length > o.maxFilesPerArea →
      r.remainingFiles = fileIds.length - o.maxFilesPerArea) ∧
    (o.maxFilesPerArea ≥ fileIds.length → r.remainingFiles = 0) := by
  obtain ⟨hl, hrem, _⟩ := processArea_ok_inv hff h
  have hmap := loadAreaFiles_mapE hl
  refine ⟨?_, hmap, ?_, ?_⟩
  · rw [mapE_ok_length hmap, List.length_take, Nat.min_comm]
  · intro hgt
    rw [hrem, if_pos hgt]
  · intro hle
    rw [hrem, if_neg (by omega)]

/-- C3: after a successful scan, the final `formatObj` (the one the global
footer template is rendered against) has `totalFileCount` equal to the sum
over all areas of the included (post-cap) file counts, and
`totalFileBytes` equal to the sum of exactly those included files' byte
sizes. -/
theorem footer_totals_are_sums {env : Env} {o : Options} {descIndent : Nat}
    {reports : List AreaReport}
    (h : findNewFiles env o descIndent = .ok reports) :
    (buildCalls env o reports).1.totalFileCount =
      (reports.map (fun r => r.files.length)).sum ∧
    (buildCalls env o reports).1.totalFileBytes =
      (reports.map (fun r => (r.files.map FileInfo.byte_size).sum)).sum :=
  ⟨buildCalls_fst_count env o reports,
   buildCalls_fst_bytes env o reports (findNewFiles_bytes_inv h)⟩

/-- C4: during rendering, the running totals never decrease along the
sequence of `stringFormat` calls (every placeholder evaluated after an
update sees the updated value), and every entry call's snapshot already
includes that entry's own byte size as a summand of `totalFileBytes`. -/
theorem running_totals_monotone_entry_included {env : Env} {o : Options}
    {descIndent : Nat} {reports : List AreaReport}
    (h : findNewFiles env o descIndent = .ok reports) :
    List.Pairwise
      (fun a b => a.fo.totalFileCount ≤ b.fo.totalFileCount ∧
        a.fo.totalFileBytes ≤ b.fo.totalFileBytes)
      (buildCalls env o reports).2 ∧
    ∀ c ∈ (buildCalls env o reports).2, c.kind = .entry →
      ∃ sz rest, c.fo.fileSize = some sz ∧ c.fo.totalFileBytes = rest + sz := by
  refine ⟨buildCalls_pairwise env o reports, ?_⟩
  intro c hc hk
  obtain ⟨sz, hsz, hle⟩ :=
    buildCalls_entry_size env o reports (findNewFiles_bytes_inv h) c hc hk
  exact ⟨sz, c.fo.totalFileBytes - sz, hsz, (Nat.sub_add_cancel hle).symm⟩

/-- C5: an area report with no files produces no calls at all (no area
header, entries or footer) and leaves the running `formatObj` untouched;
deleting it from the traversal changes nothing about the rendering. -/
theorem empty_area_emits_nothing {r : AreaReport} (fo : FormatObj)
    (xs ys : List AreaReport) (h : r.files = []) :
    renderArea fo r = (fo, []) ∧
    renderAreas fo (xs ++ r :: ys) = renderAreas fo (xs ++ ys) := by
  have hempty : ∀ fo' : FormatObj, renderArea fo' r = (fo', []) := fun fo' =>
    renderArea_empty fo' (by simp [h])
  refine ⟨hempty fo, ?_⟩
  induction xs generalizing fo with
  | nil =>
    show renderAreas fo (r :: ys) = renderAreas fo ys
    have step : renderAreas fo (r :: ys) =
        ((renderAreas (renderArea fo r).1 ys).1,
         (renderArea fo r).2 ++ (renderAreas (renderArea fo r).1 ys).2) := rfl
    rw [step, hempty fo]
    exact rfl
  | cons x xs ih =>
    show renderAreas fo (x :: (xs ++ r :: ys)) = renderAreas fo (x :: (xs ++ ys))
    unfold renderAreas
    rw [ih (renderArea fo x).1]

/-- C6: on the first-ever run (no stored checkpoint), provided options and
templates load, the run writes the current time as the new checkpoint,
terminates with the initializing error and delivers nothing; the trace
shows no scan events at all, so rendering and delivery never occur. -/
theorem first_run_initializes_and_fails {env : Env} {args : List String}
    {o : Options} {templates : List String} {descIndent : Nat}
    (hlen : 1 ≤ args.length)
    (hres : resolveStage env = .ok (o, templates, descIndent))
    (hstat : env.stat = none) :
    (runEvent env args).result =
      .error "Last timestamp not set; Set to now for next event run time" ∧
    (runEvent env args).stat = some env.nowIso ∧
    (runEvent env args).delivered = [] ∧
    (runEvent env args).trace = [Ev.statRead none, Ev.statWrite env.nowIso] := by
  rw [runEvent_eq_first hlen hres hstat]
  exact ⟨rfl, rfl, rfl, rfl⟩

/-- C7: when no area has any new files since the checkpoint, the run
succeeds (no error), delivers no message, and the checkpoint is still
advanced to the current run time. -/
theorem empty_scan_success_no_delivery {env : Env} {args : List String}
    {o : Options} {templates : List String} {descIndent : Nat} {ts : String}
    (hlen : 1 ≤ args.length)
    (hres : resolveStage env = .ok (o, templates, descIndent))
    (hstat : env.stat = some ts)
    (hempty : ∀ a ∈ env.areas, env.findFiles a.areaTag = .ok []) :
    (runEvent env args).result = .ok () ∧
    (runEvent env args).delivered = [] ∧
    (runEvent env args).stat = some env.nowIso := by
  have hfnf : findNewFiles env (withSince env o ts) descIndent =
      .ok ((matchedAreas env (withSince env o ts)).map (fun a =>
        { areaInfo := a, files := [], areaFileBytes := 0, remainingFiles := 0 })) := by
    apply mapE_of_forall_ok
    intro a ha
    have hff := hempty a (List.mem_filter.mp ha).1
    unfold processArea
    rw [hff]
    simp [loadAreaFiles, Nat.not_lt_zero]
  rw [runEvent_eq_scan hlen hres hstat hfnf]
  have hcount : (buildCalls env (withSince env o ts)
      ((matchedAreas env (withSince env o ts)).map (fun a =>
        { areaInfo := a, files := [], areaFileBytes := 0, remainingFiles := 0 }))).1.totalFileCount = 0 := by
    rw [buildCalls_fst_count, List.map_map]
    have hz : ((fun r : AreaReport => r.files.length) ∘ (fun a : Area =>
        ({ areaInfo := a, files := [], areaFileBytes := 0,
           remainingFiles := 0 } : AreaReport))) = fun _ => 0 := rfl
    rw [hz]
    simp
  rw [buildMessages_zero _ hcount]
  exact ⟨rfl, rfl, rfl⟩

/-- C8: with the final render context and body fixed, every destination
tag yields a message with that identical body, the subject rendered from
the same final totals context and the tag as its address; when every
persist succeeds the run persists exactly one message per tag in listed
order, and when some destination's persist fails, delivery stops there:
earlier tags are persisted, the failing one is attempted, and no later
tag is attempted. -/
theorem delivery_per_destination_fail_fast {env : Env} {o : Options}
    {templates : List String} {reports : List AreaReport}
    (destArg : String) (foF : FormatObj) (calls : List RenderCall) (body : String)
    (hbc : buildCalls env o reports = (foF, calls))
    (hbody : body = msgBodyOf env templates calls)
    (hpos : 0 < foF.totalFileCount) :
    (∀ t, mkMsg env o foF body t =
      { areaTag := t, toUserName := o.toName, fromUserName := o.fromName
        subject := env.fmt o.subjectFormat foF, message := body
        explicitEncoding := "cp437" }) ∧
    ((∀ t ∈ splitComma destArg, env.persist (mkMsg env o foF body t) = .ok ()) →
      buildMessages env o templates reports destArg =
        (.ok (), (splitComma destArg).map (mkMsg env o foF body)) ∧
      ((splitComma destArg).map (mkMsg env o foF body)).length =
        (splitComma destArg).length) ∧
    (∀ pre t post e, splitComma destArg = pre ++ t :: post →
      (∀ t' ∈ pre, env.persist (mkMsg env o foF body t') = .ok ()) →
      env.persist (mkMsg env o foF body t) = .error e →
      buildMessages env o templates reports destArg =
        (.error e, pre.map (mkMsg env o foF body)) ∧
      (deliverSeq env (mkMsg env o foF body) (splitComma destArg)).2.2 = pre ++ [t]) := by
  have h1 : (buildCalls env o reports).1 = foF := by rw [hbc]
  have h2 : (buildCalls env o reports).2 = calls := by rw [hbc]
  have hpos' : (buildCalls env o reports).1.totalFileCount > 0 := by rw [h1]; exact hpos
  have hbm := @buildMessages_pos env o templates reports destArg hpos'
  rw [h1, h2, ← hbody] at hbm
  refine ⟨fun t => rfl, ?_, ?_⟩
  · intro hok
    rw [hbm, deliverSeq_all_ok env _ _ hok]
    exact ⟨rfl, (List.length_map ..).symm ▸ rfl⟩
  · intro pre t post e hsplit hpre ht
    rw [hbm, hsplit, deliverSeq_fail env _ pre t post e hpre ht]
    exact ⟨rfl, rfl⟩

/-- C9: for a file record being enriched, a failed (or empty) description
reflow is not fatal: the file record, its original description included,
is returned unmodified and enrichment succeeds. -/
theorem reflow_failure_not_fatal {env : Env} {descIndent fileId : Nat}
    {fi : FileInfo}
    (hload : env.loadFile fileId = .ok fi)
    (hpr : env.ansiPrep descIndent fi.desc = none ∨
           env.ansiPrep descIndent fi.desc = some "") :
    enrichFile env descIndent fileId = .ok fi := by
  unfold enrichFile
  rw [hload]
  dsimp only
  rcases hpr with h | h <;> simp [applyDescReflow, h]

/-- C10: if the run fails while loading the options file (read error or
parse error) or while reading the templates, the stored checkpoint is left
unchanged and no stat or catalog event happens at all: the checkpoint
write lives in the scan stage, which such runs never reach. -/
theorem early_failure_leaves_checkpoint (env : Env) (args : List String)
    (h : (∃ e, loadOptions env = .error e) ∨
         (∃ o e, loadOptions env = .ok o ∧ readTemplates env o = .error e)) :
    (runEvent env args).stat = env.stat ∧
    (runEvent env args).trace = [] ∧
    ∃ e, (runEvent env args).result = .error e := by
  have hres : ∃ e, resolveStage env = .error e := by
    rcases h with ⟨e, he⟩ | ⟨o, e, ho, ht⟩
    · exact ⟨e, by unfold resolveStage; rw [he]⟩
    · refine ⟨e, ?_⟩
      unfold resolveStage
      rw [ho]
      dsimp only
      rw [ht]
  obtain ⟨e, he⟩ := hres
  unfold runEvent
  by_cases hlen : args.length < 1
  · rw [if_pos hlen]
    exact ⟨rfl, rfl, _, rfl⟩
  · rw [if_neg hlen, he]
    exact ⟨rfl, rfl, e, rfl⟩

/-! ### Concrete environments exercising the claims -/

/-- A sample catalog file record. -/
def fiT (fileId : Nat) : FileInfo :=
  { fileName := "FILE" ++ toString fileId ++ ".ZIP"
    byte_size := 1000 + fileId
    desc := "original description"
    fileSha256 := "s256"
    file_crc32 := "c32"
    file_md5 := "m5"
    file_sha1 := "s1"
    upload_by_username := some "uploader"
    uploadTimestamp := "2026-01-01T00:00:00.000Z"
    hashTags := ["demo", "new"] }

/-- A healthy environment: checkpoint present, two areas (one filtered
out), three new files in `apps`, everything succeeding. -/
def envA : Env :=
  { optionsSource := .absent
    formatNow := fun _ => "Thu, January 1st, 2026"
    formatTs := fun _ _ => "Wed, December 31st, 2025"
    readTemplateFile := fun _ => .ok "T\n"
    splitTextAtTerms := fun _ => ["T", ""]
    stat := some "2025-12-31T03:30:00.000Z"
    nowIso := "2026-01-01T03:30:00.000Z"
    areas := [{ areaTag := "apps", name := "Applications", desc := "Application files" },
              { areaTag := "uploads", name := "Uploads", desc := "General uploads" }]
    regexMatch := fun _ tag => tag != "uploads"
    findFiles := fun tag => if tag == "apps" then .ok [10, 11, 12] else .ok []
    loadFile := fun fileId => .ok (fiT fileId)
    ansiPrep := fun _ _ => some "clean\r\n"
    boardName := "Test BBS"
    fmt := fun t _ => t
    persist := fun _ => .ok () }

def oA : Options := resolveOptions envA {}

def tplA : List String := ["T\r\n", "T\r\n", "T\r\n", "T\r\n", "T\r\n"]

def oA' : Options := withSince envA oA "2025-12-31T03:30:00.000Z"

/-- The report `findNewFiles` produces for `envA`. -/
def rptA : AreaReport :=
  { areaInfo := { areaTag := "apps", name := "Applications", desc := "Application files" }
    files := [{ fiT 10 with desc := "clean\r\n" },
              { fiT 11 with desc := "clean\r\n" },
              { fiT 12 with desc := "clean\r\n" }]
    areaFileBytes := 3033
    remainingFiles := 0 }

/-- The apps area record of `envA`. -/
def areaApps : Area :=
  { areaTag := "apps", name := "Applications", desc := "Application files" }

/-- `envA` with nothing new in any area. -/
def envB : Env := { envA with findFiles := fun _ => .ok [] }

/-- `envA` on its first-ever run: no stored checkpoint. -/
def envC : Env := { envA with stat := none }

/-- `envA` with an unreadable options file (non-ENOENT error). -/
def envD : Env := { envA with optionsSource := .readError "EACCES: permission denied" }

/-- `envA` whose message persistence fails for the `bad` destination. -/
def envE : Env :=
  { envA with persist := fun m =>
      if m.areaTag == "bad" then .error "persist failed" else .ok () }

/-- `envA` whose description reflow always fails. -/
def envP : Env := { envA with ansiPrep := fun _ _ => none }

/-- Options with a per-area cap of 2 (below the 3 new files of `apps`). -/
def oSmall : Options := { oA with maxFilesPerArea := 2 }

/-- The report `processArea` produces for `apps` under the cap of 2. -/
def rptSmall : AreaReport :=
  { areaInfo := areaApps
    files := [{ fiT 10 with desc := "clean\r\n" },
              { fiT 11 with desc := "clean\r\n" }]
    areaFileBytes := 2021
    remainingFiles := 1 }

/-- An area report with no files. -/
def rptEmpty : AreaReport :=
  { areaInfo := { areaTag := "docs", name := "Documents", desc := "Document files" }
    files := []
    areaFileBytes := 0
    remainingFiles := 0 }

def foFE : FormatObj := (buildCalls envE oA' [rptA]).1

def callsE : List RenderCall := (buildCalls envE oA' [rptA]).2

def bodyE : String := msgBodyOf envE tplA callsE

/-! ### Witnesses -/

/-- Witness for C1 at `envA`: the read/write pair heads the trace, the
checkpoint ends up at the run time, and the area-enumeration event sits at
index 2, i.e. after the write. -/
theorem checkpoint_written_before_any_scan_witness :
    (runEvent envA ["ann"]).trace[0]? =
      some (Ev.statRead (some "2025-12-31T03:30:00.000Z")) ∧
    (runEvent envA ["ann"]).trace[1]? =
      some (Ev.statWrite "2026-01-01T03:30:00.000Z") ∧
    (runEvent envA ["ann"]).stat = some "2026-01-01T03:30:00.000Z" ∧
    2 ≤ 2 := by
  have h := checkpoint_written_before_any_scan envA ["ann"]
    "2025-12-31T03:30:00.000Z" oA tplA 0 (by decide) rfl rfl
  exact ⟨h.1, h.2.1, h.2.2.1, h.2.2.2 2 Ev.areaEnum rfl rfl⟩

/-- Witness for C2 at `envA` with cap 2 and 3 new file ids. -/
theorem area_cap_and_remaining_witness :
    rptSmall.files.length = min 3 2 ∧
    mapE (enrichFile envA 0) ([10, 11, 12].take 2) = .ok rptSmall.files ∧
    rptSmall.remainingFiles = 3 - 2 := by
  have h := @area_cap_and_remaining envA oSmall 0 areaApps rptSmall [10, 11, 12] rfl rfl
  exact ⟨h.1, h.2.1, h.2.2.1 (by decide)⟩

/-- Witness for C3 at `envA`: 3 included files, 1010+1011+1012 bytes. -/
theorem footer_totals_are_sums_witness :
    (buildCalls envA oA' [rptA]).1.totalFileCount = 3 ∧
    (buildCalls envA oA' [rptA]).1.totalFileBytes = 3033 := by
  have h := @footer_totals_are_sums envA oA' 0 [rptA] rfl
  exact ⟨h.1.trans rfl, h.2.trans rfl⟩

/-- Witness for C4 at `envA`. -/
theorem running_totals_monotone_entry_included_witness :
    List.Pairwise
      (fun a b => a.fo.totalFileCount ≤ b.fo.totalFileCount ∧
        a.fo.totalFileBytes ≤ b.fo.totalFileBytes)
      (buildCalls envA oA' [rptA]).2 :=
  (@running_totals_monotone_entry_included envA oA' 0 [rptA] rfl).1

/-- Witness for C5: an empty report dropped between two copies of `rptA`
changes nothing. -/
theorem empty_area_emits_nothing_witness :
    renderArea (initFormatObj envA oA') rptEmpty = (initFormatObj envA oA', []) ∧
    renderAreas (initFormatObj envA oA') ([rptA] ++ rptEmpty :: [rptA]) =
      renderAreas (initFormatObj envA oA') ([rptA] ++ [rptA]) :=
  @empty_area_emits_nothing rptEmpty (initFormatObj envA oA') [rptA] [rptA] rfl

/-- Witness for C6 at `envC` (no stored checkpoint). -/
theorem first_run_initializes_and_fails_witness :
    (runEvent envC ["ann"]).result =
      .error "Last timestamp not set; Set to now for next event run time" ∧
    (runEvent envC ["ann"]).stat = some "2026-01-01T03:30:00.000Z" ∧
    (runEvent envC ["ann"]).delivered = [] ∧
    (runEvent envC ["ann"]).trace =
      [Ev.statRead none, Ev.statWrite "2026-01-01T03:30:00.000Z"] :=
  @first_run_initializes_and_fails envC ["ann"] oA tplA 0 (by decide) rfl rfl

/-- Witness for C7 at `envB` (no new files anywhere). -/
theorem empty_scan_success_no_delivery_witness :
    (runEvent envB ["ann"]).result = .ok () ∧
    (runEvent envB ["ann"]).delivered = [] ∧
    (runEvent envB ["ann"]).stat = some "2026-01-01T03:30:00.000Z" :=
  @empty_scan_success_no_delivery envB ["ann"] oA tplA 0
    "2025-12-31T03:30:00.000Z" (by decide) rfl rfl (fun _ _ => rfl)

/-- Witness for C8 at `envE` with destinations `alpha,bad,omega`: the
`alpha` message is persisted, `bad` fails, `omega` is never attempted. -/
theorem delivery_per_destination_fail_fast_witness :
    buildMessages envE oA' tplA [rptA] "alpha,bad,omega" =
      (.error "persist failed", [mkMsg envE oA' foFE bodyE "alpha"]) :=
  ((@delivery_per_destination_fail_fast envE oA' tplA [rptA]
      "alpha,bad,omega" foFE callsE bodyE rfl rfl (by decide)).2.2
    ["alpha"] "bad" ["omega"] "persist failed" rfl
    (fun t' ht' => by rw [List.mem_singleton.mp ht']; rfl)
    rfl).1

/-- Witness for C9 at `envP` (reflow always fails): the loaded record is
returned untouched. -/
theorem reflow_failure_not_fatal_witness :
    enrichFile envP 0 10 = .ok (fiT 10) :=
  @reflow_failure_not_fatal envP 0 10 (fiT 10) rfl (Or.inl rfl)

/-- Witness for C10 at `envD` (unreadable options file): checkpoint and
trace untouched. -/
theorem early_failure_leaves_checkpoint_witness :
    (runEvent envD ["ann"]).stat = some "2025-12-31T03:30:00.000Z" ∧
    (runEvent envD ["ann"]).trace = [] := by
  have h := early_failure_leaves_checkpoint envD ["ann"]
    (Or.inl ⟨"EACCES: permission denied", rfl⟩)
  exact ⟨h.1, h.2.1⟩

end LFA
